/-
Verification development for the etcd physical backend (package `physical`,
file `etcd.go`): a shallow embedding of the key-value backend, the path
mapper and the distributed-lock engine, together with proofs about them.

Modelling conventions:
  * Go machine integers are modelled as `Nat` (bytes carry an explicit
    `< 256` bound where it matters).
  * A Go `error` value is modelled by the inductive `GoError`; `nil` errors
    are `Option.none`.  The type assertion `err.(*etcd.EtcdError)` succeeds
    exactly on the `GoError.etcdError` constructor.
  * Calls into the remote etcd client are modelled by passing the client's
    response for each call as an explicit argument (an oracle), mirroring the
    code's control flow on every response; loops that perform one client call
    per iteration consume a list of responses and return `none` when the list
    is exhausted (the loop would still be running).
  * Go standard-library functions used by the code (`path/filepath` on Unix,
    `strings.TrimPrefix`, `encoding/base64`) are modelled by `go...`- and
    `b64...`-named definitions translated from their documented algorithms.
-/
import Mathlib

set_option maxRecDepth 10000

/-- Model of a Go `error` value.  `etcdError` models `*etcd.EtcdError`
(carrying its `ErrorCode`); `simple` models any other error (such as the
values produced by `errors.New` or the watch-cancelled error); `corruptInput`
models `base64.CorruptInputError`. -/
inductive GoError where
  | etcdError (ErrorCode : Nat) (Message : String)
  | simple (msg : String)
  | corruptInput
deriving DecidableEq, Repr

/-- `errorIsMissingKey` returns true if the given error is an etcd error with
an error code corresponding to a missing key (code 100). -/
def errorIsMissingKey (err : GoError) : Bool :=
  match err with
  | .etcdError code _ => code == 100
  | _ => false

/-- `EtcdLockHeldError = errors.New("lock already held")`. -/
def EtcdLockHeldError : GoError := .simple "lock already held"

/-- `EtcdLockNotHeldError = errors.New("lock not held")`. -/
def EtcdLockNotHeldError : GoError := .simple "lock not held"

/-- `EtcdSemaphoreKeyRemovedError = errors.New("semaphore key removed before
lock aquisition")`. -/
def EtcdSemaphoreKeyRemovedError : GoError :=
  .simple "semaphore key removed before lock aquisition"

/-- `EtcdWatchRetryMax = 5`: per its comment in the source, "the number of
times to re-try a failed watch before signaling that leadership is lost". -/
def EtcdWatchRetryMax : Nat := 5

/-! ## Go standard library: `strings` and `path/filepath` (Unix rules) -/

/-- Models Go `strings.HasPrefix(s, p)`: `len(s) >= len(p) && s[:len(p)] == p`. -/
def goHasPfx (s p : List Char) : Bool :=
  s.take p.length == p

/-- Models Go `strings.TrimPrefix(s, p)`: returns `s` without the leading `p`;
if `s` does not start with `p`, `s` is returned unchanged. -/
def stringsTrimPfx (s p : String) : String :=
  if goHasPfx s.data p.data then String.mk (s.data.drop p.data.length) else s

/-- Stack-based processing of the path elements inside Go
`path/filepath.Clean`: empty and `.` elements are dropped, `..` pops the
previously kept element when one exists, is dropped at the root of a rooted
path, and is kept in an unrooted path with nothing left to pop. -/
def cleanComponents (rooted : Bool) : List (List Char) → List (List Char) → List (List Char)
  | acc, [] => acc.reverse
  | acc, c :: rest =>
    if c = [] ∨ c = ['.'] then cleanComponents rooted acc rest
    else if c = ['.', '.'] then
      match acc with
      | [] =>
        if rooted then cleanComponents rooted [] rest
        else cleanComponents rooted [c] rest
      | top :: acc' =>
        if top = ['.', '.'] then cleanComponents rooted (c :: top :: acc') rest
        else cleanComponents rooted acc' rest
    else cleanComponents rooted (c :: acc) rest

/-- Models Go `path/filepath.Clean` on Unix: applies the lexical
simplifications of the Plan 9 cleanname algorithm (drop empty and `.`
elements, resolve `..` against preceding elements, keep a leading `/`),
returning `.` for an empty result.  The result never has a trailing slash
(except the root `/` itself). -/
def goClean (s : String) : String :=
  if s = "" then "."
  else
    let rooted := s.data.head? = some '/'
    let comps := cleanComponents rooted [] (s.data.splitOn '/')
    let out := List.intercalate ['/'] comps
    let out := if rooted then '/' :: out else out
    if out = [] then "." else String.mk out

/-- Models Go `path/filepath.Join` on Unix: joins all elements starting from
the first non-empty one with `/` and runs `Clean` on the result; all-empty
input yields `""`. -/
def goJoin : List String → String
  | [] => ""
  | e :: rest =>
    if e = "" then goJoin rest
    else goClean (String.intercalate "/" (e :: rest))

/-- Models Go `path/filepath.Dir` on Unix: everything up to and including the
final path separator, then `Clean`; a path with no separator yields `.`. -/
def goDir (s : String) : String :=
  goClean (String.mk ((s.data.reverse.dropWhile (fun c => c ≠ '/')).reverse))

/-- Models Go `path/filepath.Base` on Unix: strip trailing slashes, take the
part after the last separator; `""` yields `.` and an all-slash path yields
`/`. -/
def goBase (s : String) : String :=
  if s = "" then "."
  else
    let l := (s.data.reverse.dropWhile (fun c => c = '/')).reverse
    let b := (l.reverse.takeWhile (fun c => c ≠ '/')).reverse
    if b = [] then "/" else String.mk b

/-! ## Go standard library: `encoding/base64` (`StdEncoding`) -/

/-- The standard base64 alphabet used by `base64.StdEncoding`. -/
def b64Alphabet : List Char :=
  "ABCDEFGHIJKLMNOPQRSTUVWXYZabcdefghijklmnopqrstuvwxyz0123456789+/".data

/-- The alphabet character for a 6-bit value. -/
def b64Char (n : Nat) : Char :=
  b64Alphabet.getD n 'A'

/-- The 6-bit value of an alphabet character, `none` for a character outside
the alphabet (including the padding character `=`). -/
def b64Index (c : Char) : Option Nat :=
  b64Alphabet.findIdx? (fun a => a == c)

/-- Models Go `base64.StdEncoding.EncodeToString` on a byte sequence: each
3-byte group becomes four alphabet characters; a trailing 1- or 2-byte group
is padded with `=`. -/
def b64encode : List Nat → List Char
  | [] => []
  | [b0] => [b64Char (b0 / 4), b64Char (b0 % 4 * 16), '=', '=']
  | [b0, b1] =>
    [b64Char (b0 / 4), b64Char (b0 % 4 * 16 + b1 / 16), b64Char (b1 % 16 * 4), '=']
  | b0 :: b1 :: b2 :: rest =>
    b64Char (b0 / 4) :: b64Char (b0 % 4 * 16 + b1 / 16) ::
      b64Char (b1 % 16 * 4 + b2 / 64) :: b64Char (b2 % 64) :: b64encode rest

/-- Models Go `base64.StdEncoding.DecodeString` on a byte sequence: input must
be a sequence of 4-character quanta; `=` padding is accepted only at the end
(one `=` for a 2-byte final group, `==` for a 1-byte final group); any
character outside the alphabet, or misplaced padding, is a corrupt-input
failure (`none`). -/
def b64decode : List Char → Option (List Nat)
  | [] => some []
  | c0 :: c1 :: c2 :: c3 :: rest =>
    match b64Index c0, b64Index c1 with
    | some a, some b =>
      if c2 = '=' then
        if c3 = '=' ∧ rest = [] then some [a * 4 + b / 16] else none
      else
        match b64Index c2 with
        | some c =>
          if c3 = '=' then
            if rest = [] then some [a * 4 + b / 16, b % 16 * 16 + c / 4] else none
          else
            match b64Index c3 with
            | some d =>
              (b64decode rest).map
                (fun t => (a * 4 + b / 16) :: (b % 16 * 16 + c / 4) :: (c % 4 * 64 + d) :: t)
            | none => none
        | none => none
    | _, _ => none
  | _ => none

/-! ## The KV backend -/

/-- `Entry` is used to represent data stored by the physical backend. -/
structure Entry where
  Key : String
  Value : List Nat
deriving DecidableEq, Repr

/-- `EtcdBackend` is a physical backend that stores data at a specific prefix
within etcd.  The remote `client` is modelled by response oracles passed to
each operation. -/
structure EtcdBackend where
  path : String
deriving DecidableEq, Repr

/-- `nodePath` returns an etcd filepath based on the given key:
`filepath.Join(b.path, filepath.Dir(key), EtcdNodeFilePrefix+filepath.Base(key))`
with `EtcdNodeFilePrefix = "."`. -/
def EtcdBackend.nodePath (b : EtcdBackend) (key : String) : String :=
  goJoin [b.path, goDir key, "." ++ goBase key]

/-- `nodePathDir` returns an etcd directory path based on the given key:
`filepath.Join(b.path, key) + "/"`. -/
def EtcdBackend.nodePathDir (b : EtcdBackend) (key : String) : String :=
  goJoin [b.path, key] ++ "/"

/-- `nodePathLock` returns an etcd directory path used specifically for
semaphore indices based on the given key:
`filepath.Join(b.path, filepath.Dir(key), EtcdNodeLockPrefix+filepath.Base(key)+"/")`
with `EtcdNodeLockPrefix = "_"`.  Note that the trailing `"/"` is an argument
of `Join`, so it is subject to `Clean`. -/
def EtcdBackend.nodePathLock (b : EtcdBackend) (key : String) : String :=
  goJoin [b.path, goDir key, "_" ++ goBase key ++ "/"]

/-- An ideal etcd value store for the round-trip law: `client.Set` records
the string value at the node path (and always succeeds). -/
def etcdSet (st : List (String × String)) (path v : String) : List (String × String) :=
  (path, v) :: st

/-- An ideal etcd value read: `client.Get` on a stored path returns the
stored string; on an absent path it fails with the etcd missing-key error
(code 100). -/
def etcdGetStr (st : List (String × String)) (path : String) : Except GoError String :=
  match st.lookup path with
  | some v => .ok v
  | none => .error (GoError.etcdError 100 "Key not found")

/-- `Put` is used to insert or update an entry: it stores
`base64.StdEncoding.EncodeToString(entry.Value)` at `nodePath(entry.Key)`.
Against the ideal store the `client.Set` call always succeeds, so the
returned error is omitted and the new store is returned. -/
def EtcdBackend.Put (b : EtcdBackend) (st : List (String × String)) (entry : Entry) :
    List (String × String) :=
  etcdSet st (EtcdBackend.nodePath b entry.Key) (String.mk (b64encode entry.Value))

/-- The body of `Get` after the `client.Get` call, as a function of that
call's response: a missing-key error yields `(nil, nil)`; any other error is
returned; on success the stored value is base64-decoded, a corrupt encoding
yielding the decode error, and otherwise an entry is constructed. -/
def getWithResponse (key : String) (resp : Except GoError String) :
    Except GoError (Option Entry) :=
  match resp with
  | .error e => if errorIsMissingKey e then .ok none else .error e
  | .ok v =>
    match b64decode v.data with
    | none => .error GoError.corruptInput
    | some value => .ok (some { Key := key, Value := value })

/-- `Get` is used to fetch an entry: it reads `nodePath(key)` from the store
and post-processes the response with `getWithResponse`. -/
def EtcdBackend.Get (b : EtcdBackend) (st : List (String × String)) (key : String) :
    Except GoError (Option Entry) :=
  getWithResponse key (etcdGetStr st (EtcdBackend.nodePath b key))

/-- One node of an etcd directory response (`response.Node.Nodes` elements):
its full `Key`, its string `Value` and whether it is itself a directory. -/
structure EtcdNode where
  Key : String
  Value : String
  Dir : Bool
deriving DecidableEq, Repr

/-- `List` is used to list all the keys under a given prefix, up to the next
delimiter, as a function of the `client.Get(nodePathDir(pfx), true, false)`
response: a missing directory yields an empty list without error; any other
error is surfaced; on success each child key is trimmed of the directory path
and either suffixed with `/` (directories) or stripped of its first character
(files).  Go `name[1:]` slices bytes and panics on an empty string; it is
modelled totally as dropping the first character. -/
def EtcdBackend.List (b : EtcdBackend) (pfx : String)
    (resp : Except GoError (List EtcdNode)) : Except GoError (List String) :=
  match resp with
  | .error e => if errorIsMissingKey e then .ok [] else .error e
  | .ok nodes =>
    .ok (nodes.map (fun node =>
      let name := stringsTrimPfx node.Key (EtcdBackend.nodePathDir b pfx)
      if node.Dir then name ++ "/" else String.mk (name.data.drop 1)))

/-! ## The lock engine -/

/-- `EtcdLock` implements a lock using an etcd backend.  The remote `client`
is modelled by response oracles and the local `sync.Mutex` (which only
serializes method calls of one handle) is not part of the sequential model. -/
structure EtcdLock where
  value : String
  semaphoreDirKey : String
  semaphoreKey : String
deriving DecidableEq, Repr

/-- `addSemaphoreKey` acquires a new ordered semaphore key, as a function of
the `client.CreateInOrder(semaphoreDirKey, value, EtcdLockTTL)` response
(which carries `response.Node.Key` and `response.EtcdIndex`): on error it
returns `("", 0, err)`, otherwise the new key and index. -/
def EtcdLock.addSemaphoreKey (resp : Except GoError (String × Nat)) :
    String × Nat × Option GoError :=
  match resp with
  | .error e => ("", 0, some e)
  | .ok (key, etcdIndex) => (key, etcdIndex, none)

/-- `getSemaphoreKey` determines which semaphore key holder has acquired the
lock and its value, as a function of the
`client.Get(semaphoreDirKey, true, false)` response (the sorted child list
and `response.EtcdIndex`): on error `("", "", 0, err)`; on an empty list
`("", "", idx, nil)`; otherwise the key and value of the first (lowest-named)
child. -/
def EtcdLock.getSemaphoreKey (resp : Except GoError (List EtcdNode × Nat)) :
    String × String × Nat × Option GoError :=
  match resp with
  | .error e => ("", "", 0, some e)
  | .ok (nodes, etcdIndex) =>
    match nodes with
    | [] => ("", "", etcdIndex, none)
    | n :: _ => (n.Key, n.Value, etcdIndex, none)

/-- `isHeld` determines if we are the current holders of the lock: false
without a client call when no semaphore key is recorded, otherwise a
comparison of the recorded key with the current head of the queue (errors of
the read are propagated with a false result). -/
def EtcdLock.isHeld (c : EtcdLock) (resp : Except GoError (List EtcdNode × Nat)) :
    Bool × Option GoError :=
  if c.semaphoreKey = "" then (false, none)
  else
    match EtcdLock.getSemaphoreKey resp with
    | (_, _, _, some e) => (false, some e)
    | (currentSemaphoreKey, _, _, none) => (c.semaphoreKey == currentSemaphoreKey, none)

/-- `assertHeld` returns the `isHeld` error if any, `EtcdLockNotHeldError` if
the lock is not held, and `nil` otherwise. -/
def EtcdLock.assertHeld (c : EtcdLock) (resp : Except GoError (List EtcdNode × Nat)) :
    Option GoError :=
  match EtcdLock.isHeld c resp with
  | (_, some e) => some e
  | (held, none) => if held then none else some EtcdLockNotHeldError

/-- `assertNotHeld` returns the `isHeld` error if any, `EtcdLockHeldError` if
the lock is held, and `nil` otherwise. -/
def EtcdLock.assertNotHeld (c : EtcdLock) (resp : Except GoError (List EtcdNode × Nat)) :
    Option GoError :=
  match EtcdLock.isHeld c resp with
  | (_, some e) => some e
  | (held, none) => if held then some EtcdLockHeldError else none

/-- One `client.Watch` response: the key and action of the returned event and
`response.EtcdIndex`. -/
structure WatchEvent where
  NodeKey : String
  Action : String
  EtcdIndex : Nat
deriving DecidableEq, Repr

/-- How the `watchForKeyRemoval` loop exited: a missing-key watch error, the
retry counter reaching zero, or observing a delete/expire event for the
watched key. -/
inductive WatcherExit where
  | keyMissing
  | retriesExhausted
  | keyRemoved
deriving DecidableEq, Repr

/-- The loop of `watchForKeyRemoval`, consuming one watch response per
iteration (the `time.Sleep(EtcdWatchRetryInterval)` pacing between failed
watches has no sequential effect and is not modelled).  Returns the exit kind
together with the number of watch calls performed, or `none` when the
response list is exhausted while the loop is still running. -/
def watchForKeyRemovalLoop (key : String) (etcdIndex retries : Nat) :
    List (Except GoError WatchEvent) → Option (WatcherExit × Nat)
  | [] => none
  | r :: rest =>
    match r with
    | .error e =>
      if errorIsMissingKey e then some (.keyMissing, 1)
      else if retries - 1 = 0 then some (.retriesExhausted, 1)
      else
        (watchForKeyRemovalLoop key etcdIndex (retries - 1) rest).map
          (fun p => (p.1, p.2 + 1))
    | .ok response =>
      if response.NodeKey = key ∧ (response.Action = "delete" ∨ response.Action = "expire")
      then some (.keyRemoved, 1)
      else
        (watchForKeyRemovalLoop key (response.EtcdIndex + 1) retries rest).map
          (fun p => (p.1, p.2 + 1))

/-- `watchForKeyRemoval` continuously watches a single non-directory key
starting from the provided etcd index, with a retry counter initialised to
`EtcdWatchRetryMax`; on exit (by whichever cause) the Go code closes the
provided channel.  Modelled as the loop over the list of watch responses. -/
def EtcdLock.watchForKeyRemoval (key : String) (etcdIndex : Nat)
    (resps : List (Except GoError WatchEvent)) : Option (WatcherExit × Nat) :=
  watchForKeyRemovalLoop key etcdIndex EtcdWatchRetryMax resps

/-- The client responses consumed by one iteration of the waiting loop in
`Lock`: the directory watch response, the result of the
`client.Delete(semaphoreKey, false)` performed when the watch fails with a
non-etcd error, and the `getSemaphoreKey` directory read performed after a
non-matching event. -/
structure LockIter where
  watch : Except GoError WatchEvent
  del : Option GoError
  dirGet : Except GoError (List EtcdNode × Nat)

/-- The result of `Lock` as seen by the caller: `acquired` models returning
the loss-notification channel with a `nil` error; `failed e` models returning
a `nil` channel together with the error `e` — which the code can leave as
`nil` (`failed none`). -/
inductive LockOutcome where
  | acquired
  | failed (e : Option GoError)
deriving DecidableEq, Repr

/-- Instrumented result of a `Lock` call: the final handle state, the
caller-visible outcome, the number of `client.CreateInOrder` calls performed
and the keys passed to `client.Delete`. -/
structure LockResult where
  lockState : EtcdLock
  outcome : LockOutcome
  createCalls : Nat
  deletedKeys : List String
deriving Repr

/-- The waiting loop of `Lock` (source lines 363-392): while the current
semaphore key differs from ours, watch the lock directory; a watch error that
is not an etcd error (the cancellation case) leads to deleting our semaphore
key and returning that delete call's error; an etcd watch error is returned;
a delete/expire event for our own key returns
`EtcdSemaphoreKeyRemovedError`; otherwise the head of the queue is refreshed
and the loop continues.  Returns the outcome and the keys deleted, or `none`
when the iteration oracle is exhausted while still waiting. -/
def EtcdLock.lockLoop (c : EtcdLock) :
    String → Nat → List LockIter → Option (LockOutcome × List String)
  | currentSemaphoreKey, _, [] =>
    if c.semaphoreKey = currentSemaphoreKey then some (.acquired, [])
    else none
  | currentSemaphoreKey, _currentEtcdIndex, it :: rest =>
    if c.semaphoreKey = currentSemaphoreKey then some (.acquired, [])
    else
      match it.watch with
      | .error e =>
        match e with
        | .etcdError code msg => some (.failed (some (.etcdError code msg)), [])
        | _ => some (.failed it.del, [c.semaphoreKey])
      | .ok response =>
        if response.NodeKey = c.semaphoreKey ∧
            (response.Action = "delete" ∨ response.Action = "expire")
        then some (.failed (some EtcdSemaphoreKeyRemovedError), [])
        else
          match EtcdLock.getSemaphoreKey it.dirGet with
          | (_, _, _, some e) => some (.failed (some e), [])
          | (cur, _, idx, none) => EtcdLock.lockLoop c cur idx rest

/-- `Lock` attempts to acquire the lock (source lines 331-398), as a function
of the client responses it consumes in order: `g0` for the `getSemaphoreKey`
read inside the initial `assertNotHeld`, `createResp` for the
`CreateInOrder` inside `addSemaphoreKey`, `g1` for the `getSemaphoreKey`
read of the current head, and `iters` for the waiting loop.  On the
already-held (or errored) precondition check it returns before any
`CreateInOrder` call (`createCalls = 0`).  On acquisition the Go code
additionally spawns `watchForKeyRemoval` on the recorded semaphore key and
returns the loss channel, modelled by the `acquired` outcome. -/
def EtcdLock.Lock (c : EtcdLock) (g0 : Except GoError (List EtcdNode × Nat))
    (createResp : Except GoError (String × Nat))
    (g1 : Except GoError (List EtcdNode × Nat))
    (iters : List LockIter) : Option LockResult :=
  match EtcdLock.assertNotHeld c g0 with
  | some e => some ⟨c, .failed (some e), 0, []⟩
  | none =>
    match EtcdLock.addSemaphoreKey createResp with
    | (_, _, some e) => some ⟨c, .failed (some e), 1, []⟩
    | (semaphoreKey, _, none) =>
      let cNew := { c with semaphoreKey := semaphoreKey }
      match EtcdLock.getSemaphoreKey g1 with
      | (_, _, _, some e) => some ⟨cNew, .failed (some e), 1, []⟩
      | (currentSemaphoreKey, _, currentEtcdIndex, none) =>
        (EtcdLock.lockLoop cNew currentSemaphoreKey currentEtcdIndex iters).map
          (fun p => ⟨cNew, p.1, 1, p.2⟩)

/-- `Unlock` releases the lock by deleting the associated semaphore key
(source lines 404-419), as a function of the `getSemaphoreKey` response `g`
consumed by `assertHeld` and of the `client.Delete(semaphoreKey, false)`
result `delErr`.  The returned pair is the Go error result together with the
keys passed to `client.Delete`.  Note the delete error is returned whatever
its kind. -/
def EtcdLock.Unlock (c : EtcdLock) (g : Except GoError (List EtcdNode × Nat))
    (delErr : Option GoError) : Option GoError × List String :=
  match EtcdLock.assertHeld c g with
  | some e => (some e, [])
  | none =>
    match delErr with
    | some e => (some e, [c.semaphoreKey])
    | none => (none, [c.semaphoreKey])

/-! ## Helper lemmas -/

/-- Rebuilding a string from its character data is the identity. -/
theorem stringMk_data (s : String) : String.mk s.data = s := rfl

/-- `strings.TrimPrefix` recovers the suffix when the string is the
concatenation of the trimmed part and that suffix. -/
theorem stringsTrimPfx_append (p r : String) : stringsTrimPfx (p ++ r) p = r := by
  have hd : (p ++ r).data = p.data ++ r.data := by cases p; cases r; rfl
  simp [stringsTrimPfx, goHasPfx, hd, List.take_left, List.drop_left, stringMk_data]

/-- Decoding an alphabet character recovers its 6-bit value. -/
theorem b64Index_b64Char : ∀ k, k < 64 → b64Index (b64Char k) = some k := by decide

/-- No alphabet character is the padding character. -/
theorem b64Char_ne_pad : ∀ k, k < 64 → b64Char k ≠ '=' := by decide

/-- `base64.StdEncoding` round trip: decoding an encoded byte sequence gives
back the sequence. -/
theorem b64_roundtrip : ∀ v : List Nat, (∀ x ∈ v, x < 256) → b64decode (b64encode v) = some v
  | [], _ => rfl
  | [b0], h => by
    have hb0 : b0 < 256 := h b0 (by simp)
    have h0 : b64Index (b64Char (b0 / 4)) = some (b0 / 4) := b64Index_b64Char _ (by omega)
    have h1 : b64Index (b64Char (b0 % 4 * 16)) = some (b0 % 4 * 16) :=
      b64Index_b64Char _ (by omega)
    simp [b64encode, b64decode, h0, h1]
    omega
  | [b0, b1], h => by
    have hb0 : b0 < 256 := h b0 (by simp)
    have hb1 : b1 < 256 := h b1 (by simp)
    have h0 : b64Index (b64Char (b0 / 4)) = some (b0 / 4) := b64Index_b64Char _ (by omega)
    have h1 : b64Index (b64Char (b0 % 4 * 16 + b1 / 16)) = some (b0 % 4 * 16 + b1 / 16) :=
      b64Index_b64Char _ (by omega)
    have h2 : b64Index (b64Char (b1 % 16 * 4)) = some (b1 % 16 * 4) :=
      b64Index_b64Char _ (by omega)
    have hne : b64Char (b1 % 16 * 4) ≠ '=' := b64Char_ne_pad _ (by omega)
    simp [b64encode, b64decode, h0, h1, h2, hne]
    omega
  | b0 :: b1 :: b2 :: rest, h => by
    have hb0 : b0 < 256 := h b0 (by simp)
    have hb1 : b1 < 256 := h b1 (by simp)
    have hb2 : b2 < 256 := h b2 (by simp)
    have ih := b64_roundtrip rest (fun x hx => h x (by simp [hx]))
    have h0 : b64Index (b64Char (b0 / 4)) = some (b0 / 4) := b64Index_b64Char _ (by omega)
    have h1 : b64Index (b64Char (b0 % 4 * 16 + b1 / 16)) = some (b0 % 4 * 16 + b1 / 16) :=
      b64Index_b64Char _ (by omega)
    have h2 : b64Index (b64Char (b1 % 16 * 4 + b2 / 64)) = some (b1 % 16 * 4 + b2 / 64) :=
      b64Index_b64Char _ (by omega)
    have h3 : b64Index (b64Char (b2 % 64)) = some (b2 % 64) := b64Index_b64Char _ (by omega)
    have hne2 : b64Char (b1 % 16 * 4 + b2 / 64) ≠ '=' := b64Char_ne_pad _ (by omega)
    have hne3 : b64Char (b2 % 64) ≠ '=' := b64Char_ne_pad _ (by omega)
    simp [b64encode, b64decode, h0, h1, h2, h3, hne2, hne3, ih]
    refine ⟨by omega, by omega, by omega⟩

/-! ## Claims -/

/-- C1 (counterexample): the claim says that when, while waiting in the
queue, the directory watch fails with a non-etcd (cancellation) error, `Lock`
deletes its queue entry and returns the cancellation error — a non-nil error.
On the code, `_, err = c.client.Delete(c.semaphoreKey, false)` overwrites the
cancellation error with the delete result, so when the delete succeeds `Lock`
returns a `nil` channel and a `nil` error (`LockOutcome.failed none`): at
this concrete input the semaphore entry `/vault/_k/00000002` is enqueued
behind head `/vault/_k/00000001`, the watch fails with a plain (non-etcd)
error, the delete succeeds — and the returned error is `none`, not the
cancellation error. -/
theorem claim_C1_counterexample :
    EtcdLock.Lock ⟨"v", "/vault/_k/", ""⟩ (.ok ([], 0)) (.ok ("/vault/_k/00000002", 1))
      (.ok ([⟨"/vault/_k/00000001", "w", false⟩], 1))
      [⟨.error (.simple "watch stopped by user"), none, .ok ([], 0)⟩] =
      some ⟨⟨"v", "/vault/_k/", "/vault/_k/00000002"⟩, .failed none, 1,
        ["/vault/_k/00000002"]⟩ := by
  rfl

/-- C1 (amended): when the watch in the waiting loop fails with a non-etcd
error (the cancellation case), `Lock` deletes its own queue entry and returns
a nil channel together with the error of that delete call — which is nil when
the delete succeeds — discarding the original cancellation error. -/
theorem claim_C1_amended (c : EtcdLock) (cur : String) (idx : Nat) (msg : String)
    (delRes : Option GoError) (dirGet : Except GoError (List EtcdNode × Nat))
    (rest : List LockIter) (hwait : c.semaphoreKey ≠ cur) :
    EtcdLock.lockLoop c cur idx
      ({ watch := .error (.simple msg), del := delRes, dirGet := dirGet } :: rest) =
      some (.failed delRes, [c.semaphoreKey]) := by
  simp [EtcdLock.lockLoop, hwait]

/-- C1 (witness): the amended statement at a concrete waiting state. -/
theorem claim_C1_witness :
    EtcdLock.lockLoop ⟨"v", "/d/", "/d/2"⟩ "/d/1" 0
      [{ watch := .error (.simple "cancelled"), del := none, dirGet := .ok ([], 0) }] =
      some (.failed none, ["/d/2"]) :=
  claim_C1_amended ⟨"v", "/d/", "/d/2"⟩ "/d/1" 0 "cancelled" none (.ok ([], 0)) []
    (by decide)

/-- C2: the claim says `nodePathLock(K)` equals
`join(root, dir(K), "_" + base(K))` followed by a trailing `/`.  On the code
the trailing slash is an argument of `filepath.Join`, whose `Clean` removes
it: for root `/vault` and key `foo` the code yields `/vault/_foo`, which is
not the claimed `join(...) + "/" = /vault/_foo/`. -/
theorem claim_C2_eval :
    EtcdBackend.nodePathLock ⟨"/vault"⟩ "foo" = "/vault/_foo" ∧
    EtcdBackend.nodePathLock ⟨"/vault"⟩ "foo" ≠
      goJoin ["/vault", goDir "foo", "_" ++ goBase "foo"] ++ "/" := by
  constructor
  · decide
  · decide

/-- C3 (counterexample): the claim says that when `Unlock` is called on a
handle holding the lock and the delete of the queue entry fails with a
missing-key error, `Unlock` returns nil.  On the code the delete error is
returned unconditionally (there is no `errorIsMissingKey` check in `Unlock`):
at this concrete input the handle holds the lock, the delete fails with etcd
error code 100, and `Unlock` returns that error, not nil. -/
theorem claim_C3_counterexample :
    EtcdLock.Unlock ⟨"v", "/vault/_k/", "/vault/_k/00000001"⟩
      (.ok ([⟨"/vault/_k/00000001", "v", false⟩], 2))
      (some (GoError.etcdError 100 "Key not found")) =
      (some (GoError.etcdError 100 "Key not found"), ["/vault/_k/00000001"]) := by
  rfl

/-- C3 (amended): when `Unlock` is called on a handle that currently holds
the lock, it deletes the handle's queue entry and returns the delete call's
error unchanged — including a missing-key error — and nil exactly when the
delete succeeded. -/
theorem claim_C3_amended (c : EtcdLock) (g : Except GoError (List EtcdNode × Nat))
    (delErr : Option GoError) (hheld : EtcdLock.assertHeld c g = none) :
    EtcdLock.Unlock c g delErr = (delErr, [c.semaphoreKey]) := by
  cases delErr <;> simp [EtcdLock.Unlock, hheld]

/-- C3 (witness): the amended statement at a concrete held state with a
failing delete. -/
theorem claim_C3_witness :
    EtcdLock.Unlock ⟨"v", "/d/", "/d/1"⟩ (.ok ([⟨"/d/1", "v", false⟩], 2))
      (some (GoError.simple "boom")) = (some (GoError.simple "boom"), ["/d/1"]) :=
  claim_C3_amended ⟨"v", "/d/", "/d/1"⟩ (.ok ([⟨"/d/1", "v", false⟩], 2))
    (some (GoError.simple "boom")) (by rfl)

/-- C4: the claim (and the comment on `EtcdWatchRetryMax`) says a failed
watch is retried up to 5 times before the watcher gives up.  On the code the
counter starts at 5 and is decremented *before* the zero test, so the 5th
consecutive failed call exits the loop: presented with six consecutive
non-missing-key watch errors, the watcher performs only 5 watch calls in
total — the first failure plus 4 retries — and never makes the 6th call a
5th retry would require. -/
theorem claim_C4_eval :
    EtcdLock.watchForKeyRemoval "k" 0
      (List.replicate 6 (Except.error (GoError.simple "watch failed"))) =
      some (WatcherExit.retriesExhausted, 5) := by
  rfl

/-- C9: calling `Lock` on a handle that already holds the lock (its `isHeld`
check against the queue read returns true without error) fails with
`EtcdLockHeldError`, performs no `CreateInOrder` call (`createCalls = 0`) and
leaves the handle state unchanged — the queue gains no second entry from this
handle. -/
theorem claim_C9 (c : EtcdLock) (g0 : Except GoError (List EtcdNode × Nat))
    (createResp : Except GoError (String × Nat)) (g1 : Except GoError (List EtcdNode × Nat))
    (iters : List LockIter) (hheld : EtcdLock.isHeld c g0 = (true, none)) :
    EtcdLock.Lock c g0 createResp g1 iters =
      some ⟨c, .failed (some EtcdLockHeldError), 0, []⟩ := by
  simp [EtcdLock.Lock, EtcdLock.assertNotHeld, hheld]

/-- C9 (witness): a handle whose recorded entry is the head of the queue. -/
theorem claim_C9_witness :
    EtcdLock.Lock ⟨"v", "/vault/_k/", "/vault/_k/00000001"⟩
      (.ok ([⟨"/vault/_k/00000001", "v", false⟩], 2)) (.ok ("/vault/_k/00000009", 9))
      (.ok ([], 0)) [] =
      some ⟨⟨"v", "/vault/_k/", "/vault/_k/00000001"⟩, .failed (some EtcdLockHeldError),
        0, []⟩ :=
  claim_C9 ⟨"v", "/vault/_k/", "/vault/_k/00000001"⟩
    (.ok ([⟨"/vault/_k/00000001", "v", false⟩], 2)) (.ok ("/vault/_k/00000009", 9))
    (.ok ([], 0)) [] (by rfl)

/-- The character data of a rebuilt string is the original list. -/
theorem stringData_mk (l : List Char) : (String.mk l).data = l := rfl

/-- C5: for every key and byte sequence, `Put` followed by `Get` on the same
key (with no intervening writes, the ideal store returning what was stored)
yields an entry whose value is byte-identical to the original: the base64
encode/decode pair round-trips. -/
theorem claim_C5 (b : EtcdBackend) (st : List (String × String)) (key : String)
    (v : List Nat) (hv : ∀ x ∈ v, x < 256) :
    EtcdBackend.Get b (EtcdBackend.Put b st { Key := key, Value := v }) key =
      .ok (some { Key := key, Value := v }) := by
  simp [EtcdBackend.Get, EtcdBackend.Put, etcdSet, etcdGetStr, getWithResponse,
    List.lookup, stringData_mk, b64_roundtrip v hv]

/-- C5 (witness): a concrete binary value (including a 0xFF and a zero byte)
round-trips through `Put`/`Get`. -/
theorem claim_C5_witness :
    EtcdBackend.Get ⟨"/vault"⟩ (EtcdBackend.Put ⟨"/vault"⟩ [] ⟨"a/b", [1, 2, 255, 0]⟩)
      "a/b" = .ok (some ⟨"a/b", [1, 2, 255, 0]⟩) :=
  claim_C5 ⟨"/vault"⟩ [] "a/b" [1, 2, 255, 0] (by decide)

/-- C6: `Get` returns no entry and no error exactly when the store read
fails with the missing-key error (etcd error code 100); any other store
error is returned unchanged; a successful read never yields an absent entry;
and a stored string that is not valid base64 yields the decode error (and no
entry). -/
theorem claim_C6 (key s : String) (e : GoError) :
    (getWithResponse key (.error e) = .ok none ↔ errorIsMissingKey e = true) ∧
    (errorIsMissingKey e = false → getWithResponse key (.error e) = .error e) ∧
    getWithResponse key (.ok s) ≠ .ok none ∧
    (b64decode s.data = none → getWithResponse key (.ok s) = .error GoError.corruptInput) := by
  refine ⟨?_, ?_, ?_, ?_⟩
  · by_cases h : errorIsMissingKey e <;> simp [getWithResponse, h]
  · intro h; simp [getWithResponse, h]
  · cases hb : b64decode s.data <;> simp [getWithResponse, hb]
  · intro h; simp [getWithResponse, h]

/-- C6 (witness): the three behaviours at concrete inputs — a missing-key
error yields `(nil, nil)`, a transport error is surfaced unchanged, and a
stored string that is not valid base64 yields the decode error. -/
theorem claim_C6_witness :
    getWithResponse "k" (.error (GoError.etcdError 100 "Key not found")) = .ok none ∧
    getWithResponse "k" (.error (GoError.simple "connection refused")) =
      .error (GoError.simple "connection refused") ∧
    getWithResponse "k" (.ok "!!") = .error GoError.corruptInput :=
  ⟨(claim_C6 "k" "!!" (GoError.etcdError 100 "Key not found")).1.mpr (by decide),
   (claim_C6 "k" "!!" (GoError.simple "connection refused")).2.1 (by decide),
   (claim_C6 "k" "!!" (GoError.simple "connection refused")).2.2.2 (by decide)⟩

/-- Mapping a function over a list equals mapping a pairwise function over
its zip with an equal-length list, when the two agree on every zipped pair. -/
theorem map_eq_zipMap {α β γ : Type} (f : α → γ) (g : α × β → γ) :
    ∀ (l : List α) (m : List β), l.length = m.length →
      (∀ p ∈ l.zip m, f p.1 = g p) → l.map f = (l.zip m).map g
  | [], [], _, _ => rfl
  | [], _ :: _, h, _ => by simp at h
  | _ :: _, [], h, _ => by simp at h
  | a :: l, b :: m, h, hp => by
    simp only [List.map_cons, List.zip_cons_cons]
    rw [hp (a, b) (by simp),
      map_eq_zipMap f g l m (by simpa using h) (fun p hpm => hp p (by simp [hpm]))]

/-- C7: `List` on a missing directory returns an empty list without error,
and on a successful read returns, for each immediate child whose key is the
directory path followed by its basename, `basename + "/"` for a directory
child and the basename minus its first character for a file child. -/
theorem claim_C7 (b : EtcdBackend) (pfx : String) (e : GoError)
    (nodes : List EtcdNode) (bnames : List String)
    (hlen : nodes.length = bnames.length)
    (hkeys : ∀ p ∈ nodes.zip bnames, p.1.Key = EtcdBackend.nodePathDir b pfx ++ p.2) :
    (errorIsMissingKey e = true → EtcdBackend.List b pfx (.error e) = .ok []) ∧
    EtcdBackend.List b pfx (.ok nodes) =
      .ok ((nodes.zip bnames).map (fun p =>
        if p.1.Dir then p.2 ++ "/" else String.mk (p.2.data.drop 1))) := by
  constructor
  · intro hmk
    simp [EtcdBackend.List, hmk]
  · show Except.ok (nodes.map (fun node =>
      let name := stringsTrimPfx node.Key (EtcdBackend.nodePathDir b pfx)
      if node.Dir then name ++ "/" else String.mk (name.data.drop 1))) = _
    refine congrArg Except.ok (map_eq_zipMap _ _ nodes bnames hlen ?_)
    intro p hp
    simp [hkeys p hp, stringsTrimPfx_append]

/-- C7 (witness): a missing directory, a `.`-prefixed file child and a
directory child, at concrete inputs. -/
theorem claim_C7_witness :
    EtcdBackend.List ⟨"/t"⟩ "a" (.error (GoError.etcdError 100 "Key not found")) =
      .ok [] ∧
    EtcdBackend.List ⟨"/t"⟩ "a"
      (.ok [⟨"/t/a/.y", "v", false⟩, ⟨"/t/a/sub", "", true⟩]) = .ok ["y", "sub/"] := by
  have h := claim_C7 ⟨"/t"⟩ "a" (GoError.etcdError 100 "Key not found")
    [⟨"/t/a/.y", "v", false⟩, ⟨"/t/a/sub", "", true⟩] [".y", "sub"] (by decide) (by decide)
  exact ⟨h.1 (by decide), h.2⟩

/-- C10: for every non-directory child whose key is the directory path
followed by a non-empty basename, `List` outputs that basename with exactly
its first character removed, unconditionally — even when the basename does
not begin with `.`, so such a foreign entry does not appear verbatim. -/
theorem claim_C10 (b : EtcdBackend) (pfx bname : String) (nodes : List EtcdNode)
    (i : Nat) (hi : i < nodes.length)
    (hdir : nodes[i].Dir = false)
    (hkey : nodes[i].Key = EtcdBackend.nodePathDir b pfx ++ bname)
    (hne : bname ≠ "") :
    ∀ out, EtcdBackend.List b pfx (.ok nodes) = .ok out →
      out[i]? = some (String.mk (bname.data.drop 1)) ∧
      String.mk (bname.data.drop 1) ≠ bname := by
  intro out hout
  have hdata : bname.data ≠ [] := by
    intro hnil
    exact hne (by cases bname; simp only at hnil; rw [hnil])
  constructor
  · have : out = nodes.map (fun node =>
        let name := stringsTrimPfx node.Key (EtcdBackend.nodePathDir b pfx)
        if node.Dir then name ++ "/" else String.mk (name.data.drop 1)) := by
      have : EtcdBackend.List b pfx (.ok nodes) = .ok (nodes.map (fun node =>
          let name := stringsTrimPfx node.Key (EtcdBackend.nodePathDir b pfx)
          if node.Dir then name ++ "/" else String.mk (name.data.drop 1))) := rfl
      rw [this] at hout
      exact (Except.ok.inj hout).symm
    rw [this, List.getElem?_map, List.getElem?_eq_getElem hi]
    simp [hdir, hkey, stringsTrimPfx_append]
  · intro hcontra
    have hlen : (bname.data.drop 1).length = bname.data.length :=
      congrArg (fun t => t.data.length) hcontra
    have hpos : 0 < bname.data.length := List.length_pos.mpr hdata
    simp only [List.length_drop] at hlen
    omega

/-- C10 (witness): a foreign file entry `xyz` (no `.` in front) under
`/vault/d/` comes out as `yz`, its first character stripped, not verbatim. -/
theorem claim_C10_witness :
    (["yz"] : List String)[0]? = some "yz" ∧ ("yz" : String) ≠ "xyz" :=
  claim_C10 ⟨"/vault"⟩ "d" "xyz" [⟨"/vault/d/xyz", "", false⟩] 0 (by decide) (by decide)
    (by decide) (by decide) ["yz"] (by rfl)

/-- C8: `isHeld` returns true exactly when the recorded semaphore key is
non-empty and equals the lowest-named entry of the (sorted) lock-queue
directory listing; with an empty recorded key it returns `(false, nil)`
without consulting the store, and a store-read error is propagated (with a
false result). -/
theorem claim_C8 (c : EtcdLock) (e : GoError) (nodes : List EtcdNode) (idx : Nat) :
    (c.semaphoreKey = "" → ∀ resp, EtcdLock.isHeld c resp = (false, none)) ∧
    (c.semaphoreKey ≠ "" → EtcdLock.isHeld c (.error e) = (false, some e)) ∧
    (c.semaphoreKey ≠ "" → nodes.Pairwise (fun a b => a.Key ≤ b.Key) →
      (EtcdLock.isHeld c (.ok (nodes, idx))).2 = none ∧
      ((EtcdLock.isHeld c (.ok (nodes, idx))).1 = true ↔
        ∃ n ∈ nodes, n.Key = c.semaphoreKey ∧ ∀ m ∈ nodes, n.Key ≤ m.Key)) := by
  refine ⟨?_, ?_, ?_⟩
  · intro h resp
    simp [EtcdLock.isHeld, h]
  · intro h
    simp [EtcdLock.isHeld, EtcdLock.getSemaphoreKey, h]
  · intro h hsorted
    cases nodes with
    | nil =>
      simp [EtcdLock.isHeld, EtcdLock.getSemaphoreKey, h]
    | cons n0 rest =>
      refine ⟨by simp [EtcdLock.isHeld, EtcdLock.getSemaphoreKey, h], ?_⟩
      have hred : (EtcdLock.isHeld c (.ok (n0 :: rest, idx))).1 =
          (c.semaphoreKey == n0.Key) := by
        simp [EtcdLock.isHeld, EtcdLock.getSemaphoreKey, h]
      rw [hred]
      constructor
      · intro htrue
        refine ⟨n0, by simp, (beq_iff_eq.mp htrue).symm, ?_⟩
        intro m hm
        rcases List.mem_cons.mp hm with heq | hmem
        · rw [heq]
        · exact (List.pairwise_cons.mp hsorted).1 m hmem
      · rintro ⟨n, hn, hkey, hmin⟩
        rcases List.mem_cons.mp hn with hexq | hmem
        · exact beq_iff_eq.mpr (hexq ▸ hkey).symm
        · have h1 : n0.Key ≤ n.Key := (List.pairwise_cons.mp hsorted).1 n hmem
          have h2 : n.Key ≤ n0.Key := hmin n0 (by simp)
          have h3 : n.Key = n0.Key := le_antisymm h2 h1
          exact beq_iff_eq.mpr (h3 ▸ hkey).symm

/-- C8 (witness): an empty recorded key gives `(false, nil)`; a read error is
propagated; and a handle whose recorded key equals the single (hence lowest)
queue entry observes itself as held. -/
theorem claim_C8_witness :
    EtcdLock.isHeld ⟨"v", "/d/", ""⟩ (.error (GoError.simple "boom")) = (false, none) ∧
    EtcdLock.isHeld ⟨"v", "/d/", "/d/1"⟩ (.error (GoError.simple "boom")) =
      (false, some (GoError.simple "boom")) ∧
    (EtcdLock.isHeld ⟨"v", "/d/", "/d/1"⟩ (.ok ([⟨"/d/1", "v", false⟩], 7))).1 = true := by
  refine ⟨(claim_C8 ⟨"v", "/d/", ""⟩ (GoError.simple "boom") [] 0).1 (by decide) _,
    (claim_C8 ⟨"v", "/d/", "/d/1"⟩ (GoError.simple "boom") [] 0).2.1 (by decide), ?_⟩
  refine ((claim_C8 ⟨"v", "/d/", "/d/1"⟩ (GoError.simple "boom")
    [⟨"/d/1", "v", false⟩] 7).2.2 (by decide) (by simp)).2.mpr ?_
  exact ⟨⟨"/d/1", "v", false⟩, by simp, rfl, by simp⟩
